import Mathlib

/-!
Verification development for the k8s-secret-sync operator.

The embedding below translates, from the Go sources:
  * Go string-keyed maps as association lists (`List (String × String)`)
    with the comma-ok read (`mapGet`), assignment (`mapSet`) and
    `maps.Copy` (`mapCopyInto`) operations;
  * the configuration loader `config.New` together with the generic
    `env` helper (`pkg/config`), including `strconv.Atoi` semantics;
  * the reconciliation handler registered as `AddFunc` inside `sync.Run`,
    as a pure function `addFunc` from a configuration, an environment of
    collaborator behaviours (provider construction, provider fetch, JSON
    marshalling, patch submission, the current timestamp) and the observed
    secret to a `HandlerRun` recording the outcome, the number of provider
    fetch calls, the number of patch submissions and the submitted payload;
  * a heap-level rendering `addFuncH` of the same handler in which the
    secret's mutable maps live at explicit addresses, used to state that
    the handler never writes to the maps of the secret it receives.
-/

set_option autoImplicit false

namespace KSS

/-! ## Go map model: association lists with unique keys -/

/-- Read of a Go `map[string]string`: the value of the first entry with the
given key, if any. -/
def mapLookup (m : List (String × String)) (k : String) : Option String :=
  match m with
  | [] => none
  | kv :: rest => if kv.1 = k then some kv.2 else mapLookup rest k

/-- Comma-ok read `v, ok := m[k]` of a Go map: a missing key yields the zero
value `""` and `false`. -/
def mapGet (m : List (String × String)) (k : String) : String × Bool :=
  match mapLookup m k with
  | some v => (v, true)
  | none => ("", false)

/-- Assignment `m[k] = v` on a Go map: replace the entry with the given key if
present, otherwise add it. -/
def mapSet (m : List (String × String)) (k v : String) : List (String × String) :=
  match m with
  | [] => [(k, v)]
  | kv :: rest => if kv.1 = k then (k, v) :: rest else kv :: mapSet rest k v

/-- `maps.Copy(dst, src)`: set every entry of `src` into `dst`, in order. -/
def mapCopyInto (dst src : List (String × String)) : List (String × String) :=
  src.foldl (fun acc kv => mapSet acc kv.1 kv.2) dst

/-- A fresh copy of a map: `maps.Copy` into a freshly made empty map. -/
def mapCopy (m : List (String × String)) : List (String × String) :=
  mapCopyInto [] m

/-- Merge of a strategic-merge-patch map into a base map: every entry of the
patch is set into the base, entries of the base not mentioned by the patch are
left alone. -/
def mapMerge (base patch : List (String × String)) : List (String × String) :=
  mapCopyInto base patch

/-- Well-formedness of the association-list rendering of a Go map: keys are
pairwise distinct (a Go map cannot hold a key twice). -/
def keysNodup (m : List (String × String)) : Prop :=
  (m.map Prod.fst).Nodup

instance (m : List (String × String)) : Decidable (keysNodup m) := by
  unfold keysNodup; infer_instance

theorem mapLookup_mapSet (m : List (String × String)) (k v k' : String) :
    mapLookup (mapSet m k v) k' = if k' = k then some v else mapLookup m k' := by
  induction m with
  | nil =>
    by_cases h : k' = k
    · subst h; simp [mapSet, mapLookup]
    · simp [mapSet, mapLookup, h, Ne.symm h]
  | cons kv rest ih =>
    obtain ⟨a, b⟩ := kv
    by_cases h : a = k
    · subst h
      by_cases h2 : k' = a
      · subst h2; simp [mapSet, mapLookup]
      · simp [mapSet, mapLookup, h2, Ne.symm h2]
    · by_cases h3 : a = k'
      · subst h3
        have h4 : ¬ a = k := h
        have h5 : ¬ k = a := fun hh => h4 hh.symm
        simp [mapSet, mapLookup, h4, h5]
      · simp [mapSet, mapLookup, h, h3, ih]

theorem mapLookup_append (l1 l2 : List (String × String)) (k : String) :
    mapLookup (l1 ++ l2) k =
      (match mapLookup l1 k with
       | some v => some v
       | none => mapLookup l2 k) := by
  induction l1 with
  | nil => simp [mapLookup]
  | cons kv rest ih =>
    by_cases h : kv.1 = k
    · simp [mapLookup, h]
    · simp [mapLookup, h, ih]

theorem mapSet_of_absent (m : List (String × String)) (k v : String)
    (h : mapLookup m k = none) : mapSet m k v = m ++ [(k, v)] := by
  induction m with
  | nil => simp [mapSet]
  | cons kv rest ih =>
    simp only [mapLookup] at h
    by_cases h2 : kv.1 = k
    · simp [h2] at h
    · simp only [mapSet, if_neg h2, List.cons_append, List.cons.injEq, true_and]
      exact ih (by simpa [h2] using h)

theorem mapSet_of_present (m : List (String × String)) (k v : String)
    (h : mapLookup m k = some v) : mapSet m k v = m := by
  induction m with
  | nil => simp [mapLookup] at h
  | cons kv rest ih =>
    obtain ⟨a, b⟩ := kv
    simp only [mapLookup] at h
    by_cases h2 : a = k
    · rw [if_pos h2] at h
      have hval : b = v := by
        have := h
        simp only [Option.some.injEq] at this
        exact this
      subst h2; subst hval
      simp [mapSet]
    · rw [if_neg h2] at h
      simp [mapSet, h2, ih h]

theorem mapLookup_of_mem (m : List (String × String)) (k v : String)
    (hnd : keysNodup m) (hmem : (k, v) ∈ m) : mapLookup m k = some v := by
  induction m with
  | nil => simp at hmem
  | cons kv rest ih =>
    unfold keysNodup at hnd
    simp only [List.map_cons, List.nodup_cons] at hnd
    rcases List.mem_cons.mp hmem with heq | hrest
    · subst heq; simp [mapLookup]
    · have hk : k ∈ rest.map Prod.fst := List.mem_map.mpr ⟨(k, v), hrest, rfl⟩
      have hne : kv.1 ≠ k := fun h => hnd.1 (h ▸ hk)
      simp only [mapLookup, if_neg hne]
      exact ih hnd.2 hrest

theorem mapCopyInto_fix (l acc : List (String × String))
    (h : ∀ kv ∈ l, mapLookup acc kv.1 = some kv.2) :
    mapCopyInto acc l = acc := by
  induction l generalizing acc with
  | nil => rfl
  | cons kv rest ih =>
    unfold mapCopyInto
    simp only [List.foldl_cons]
    rw [mapSet_of_present acc kv.1 kv.2 (h kv (List.mem_cons_self _ _))]
    exact ih acc fun p hp => h p (List.mem_cons_of_mem _ hp)

theorem mapCopyInto_disjoint (l acc : List (String × String))
    (hnd : keysNodup l)
    (h : ∀ kv ∈ l, mapLookup acc kv.1 = none) :
    mapCopyInto acc l = acc ++ l := by
  induction l generalizing acc with
  | nil => simp [mapCopyInto]
  | cons kv rest ih =>
    unfold keysNodup at hnd
    simp only [List.map_cons, List.nodup_cons] at hnd
    unfold mapCopyInto
    simp only [List.foldl_cons]
    rw [mapSet_of_absent acc kv.1 kv.2 (h kv (List.mem_cons_self _ _))]
    have step : mapCopyInto (acc ++ [(kv.1, kv.2)]) rest = (acc ++ [(kv.1, kv.2)]) ++ rest := by
      apply ih
      · exact hnd.2
      · intro p hp
        rw [mapLookup_append]
        rw [h p (List.mem_cons_of_mem _ hp)]
        have hk : p.1 ∈ rest.map Prod.fst := List.mem_map.mpr ⟨p, hp, rfl⟩
        have hne : kv.1 ≠ p.1 := fun he => hnd.1 (he ▸ hk)
        simp [mapLookup, hne]
    unfold mapCopyInto at step
    rw [step]
    simp

theorem mapCopy_eq_self (m : List (String × String)) (hnd : keysNodup m) :
    mapCopy m = m := by
  unfold mapCopy
  rw [mapCopyInto_disjoint m [] hnd (fun kv _ => rfl)]
  simp

/-! ## Configuration (`pkg/config`) -/

/-- Keys used to read metadata off a secret (Go `config.Annotations`). -/
structure Annotations where
  providerName : String
  providerRef : String
  secretKey : String
  deriving DecidableEq

/-- Process configuration (Go `config.Sync`); the clientset is a collaborator
handle and is not part of the pure data. -/
structure Sync where
  annotations : Annotations
  defaultSecretDataKey : String
  pollInterval : Int
  deriving DecidableEq

/-- Process environment; `os.Getenv` returns `""` for an unset variable, so an
environment is a string map read with default `""`. -/
def getenv (e : List (String × String)) (k : String) : String :=
  match mapLookup e k with
  | some v => v
  | none => ""

/-- Semantics of Go `strconv.Atoi`: an optional `+` or `-` sign followed by one
or more ASCII digits, erring (`none`) on anything else and on values outside
the 64-bit signed range. -/
def atoi (s : String) : Option Int :=
  let cs := s.data
  let neg : Bool := cs.head? = some '-'
  let ds : List Char :=
    match cs with
    | c :: rest => if c = '-' ∨ c = '+' then rest else cs
    | [] => []
  if ds.length = 0 ∨ ¬ ds.all Char.isDigit then
    none
  else
    let n : Nat := ds.foldl (fun acc c => acc * 10 + (c.toNat - 48)) 0
    let i : Int := if neg then -(n : Int) else (n : Int)
    if i < -(2 ^ 63) ∨ (2 ^ 63 - 1 : Int) < i then none else some i

/-- The string instance of the generic `env` helper: a non-empty environment
value is returned verbatim, otherwise the default. -/
def envString (e : List (String × String)) (k d : String) : String :=
  if getenv e k ≠ "" then getenv e k else d

/-- The int instance of the generic `env` helper: a non-empty environment value
is parsed with `strconv.Atoi` and used only when parsing succeeds, otherwise
the default. -/
def envInt (e : List (String × String)) (k : String) (d : Int) : Int :=
  if getenv e k ≠ "" then
    match atoi (getenv e k) with
    | some n => n
    | none => d
  else d

/-- `config.New`: build the configuration from the environment with the
documented defaults. -/
def configNew (e : List (String × String)) : Sync :=
  ⟨⟨envString e "KSS_SECRET_ANNOTATION_KEY_PROVIDER_NAME" "k8s-secret-sync.weinbender.io/provider-name",
    envString e "KSS_SECRET_ANNOTATION_KEY_PROVIDER_REF" "k8s-secret-sync.weinbender.io/provider-ref",
    envString e "KSS_SECRET_ANNOTATION_KEY_SECRET_KEY" "k8s-secret-sync.weinbender.io/secret-key"⟩,
   envString e "KSS_DEFAULT_SECRET_DATA_KEY" "value",
   envInt e "KSS_POLL_INTERVAL" 300⟩

/-! ## The reconciliation handler (`sync.Run`, `AddFunc`) -/

/-- A secret object as seen by the handler: namespace, name, string-keyed
metadata map and binary data map (byte strings modelled as strings). -/
structure Secret where
  ns : String
  name : String
  annotations : List (String × String)
  data : List (String × String)
  deriving DecidableEq

/-- Behaviour of the collaborators the handler calls out to, for one event:
the result of constructing the `op` provider (`NewProvider`), the provider
`GetSecretValue` call keyed by the reference, whether `json.Marshal` and the
patch submission succeed, and the current UTC RFC3339 timestamp. -/
structure SyncEnv where
  providerInit : Except String Unit
  fetch : String → Except String String
  marshalOk : Bool
  patchOk : Bool
  now : String

/-- The `providers` map of `sync.Run` holds a constructor function only under
the key `"op"`. -/
def providersHas (name : String) : Bool :=
  name == "op"

/-- The partial-update patch payload: the copied-and-extended `metadata.annotations`
map and the one-entry `data` map. -/
structure Patch where
  annotations : List (String × String)
  data : List (String × String)
  deriving DecidableEq

/-- How one invocation of the `AddFunc` handler ended. `panicNilProviderFunc`
records the run-time panic caused by calling the nil function value that the
`providers` map yields for an unregistered provider name. -/
inductive Outcome where
  | skipNoProvider
  | skipNoRef
  | alreadySynced
  | panicNilProviderFunc
  | providerInitFailed
  | fetchFailed
  | marshalFailed
  | patchFailed
  | success
  deriving DecidableEq

/-- What one invocation of the `AddFunc` handler did: its outcome, the number
of `GetSecretValue` calls, the number of patch submissions, and the payload of
the submitted patch when a submission happened. -/
structure HandlerRun where
  outcome : Outcome
  patch : Option Patch
  fetchCalls : Nat
  patchCalls : Nat
  deriving DecidableEq

/-- Destination-data-key resolution step of the handler: the `secret-key`
annotated value when present and non-empty, else the configured default. -/
def resolveDataKey (cfg : Sync) (secret : Secret) : String :=
  let sk := mapGet secret.annotations cfg.annotations.secretKey
  if sk.2 = true ∧ sk.1 ≠ "" then sk.1 else cfg.defaultSecretDataKey

/-- Patch construction step of the handler (uses the resolved destination key
computed above the provider lookup in the source): copy the secret's metadata map into
a fresh map, add the `last-synced` timestamp, and pair it with a fresh
one-entry data map holding the fetched value under the resolved key. -/
def computePatch (cfg : Sync) (secret : Secret) (now value : String) : Patch :=
  ⟨mapSet (mapCopy secret.annotations) "last-synced" now,
   [(resolveDataKey cfg secret, value)]⟩

/-- The `AddFunc` handler of `sync.Run`, translated line by line: gate on the
provider-name annotated value, then the ref, then the `last-synced` marker;
resolve the destination key; look the provider up (an unregistered name yields
a nil function whose call panics); construct it; fetch; build, marshal and
submit the patch; log and return on every failure. -/
def addFunc (cfg : Sync) (env : SyncEnv) (secret : Secret) : HandlerRun :=
  let pn := mapGet secret.annotations cfg.annotations.providerName
  if pn.2 = false ∨ pn.1 = "" then
    ⟨.skipNoProvider, none, 0, 0⟩
  else
    let rid := mapGet secret.annotations cfg.annotations.providerRef
    if rid.2 = false ∨ rid.1 = "" then
      ⟨.skipNoRef, none, 0, 0⟩
    else if (mapGet secret.annotations "last-synced").2 = true then
      ⟨.alreadySynced, none, 0, 0⟩
    else
      let secretDataKey := resolveDataKey cfg secret
      if providersHas pn.1 then
        match env.providerInit with
        | .error _ => ⟨.providerInitFailed, none, 0, 0⟩
        | .ok _ =>
          match env.fetch rid.1 with
          | .error _ => ⟨.fetchFailed, none, 1, 0⟩
          | .ok value =>
            let patch : Patch := ⟨mapSet (mapCopy secret.annotations) "last-synced" env.now,
                                  [(secretDataKey, value)]⟩
            if env.marshalOk = false then ⟨.marshalFailed, none, 1, 0⟩
            else if env.patchOk = false then ⟨.patchFailed, some patch, 1, 1⟩
            else ⟨.success, some patch, 1, 1⟩
      else
        ⟨.panicNilProviderFunc, none, 0, 0⟩

/-! ## Concrete fixtures used by witnesses and counterexamples -/

/-- The configuration obtained from an empty process environment: all
defaults. -/
def cfgD : Sync := configNew []

/-- A collaborator environment in which everything succeeds. -/
def envOkD : SyncEnv :=
  ⟨Except.ok (), fun _ => Except.ok "s3cr3t", true, true, "2026-01-01T00:00:00Z"⟩

/-- A collaborator environment in which provider construction fails. -/
def envInitFailD : SyncEnv :=
  ⟨Except.error "missing service account token", fun _ => Except.ok "s3cr3t",
   true, true, "2026-01-01T00:00:00Z"⟩

/-- An eligible, unsynced secret naming the registered provider. -/
def sEligible : Secret :=
  ⟨"ns", "db-secret",
   [("k8s-secret-sync.weinbender.io/provider-name", "op"),
    ("k8s-secret-sync.weinbender.io/provider-ref", "vault-item-42")],
   [("other", "prior")]⟩

/-- A secret carrying only the provider-name intent, no reference. -/
def sNoRef : Secret :=
  ⟨"ns", "db-secret",
   [("k8s-secret-sync.weinbender.io/provider-name", "op")], []⟩

/-- An eligible secret that already carries the `last-synced` marker. -/
def sSynced : Secret :=
  ⟨"ns", "db-secret",
   [("k8s-secret-sync.weinbender.io/provider-name", "op"),
    ("k8s-secret-sync.weinbender.io/provider-ref", "vault-item-42"),
    ("last-synced", "2025-12-31T00:00:00Z")], []⟩

/-! ## Claim theorems -/

/-- C2: for every secret whose provider-name annotated value is absent or
empty, or whose reference annotated value is absent or empty, the handler
performs no provider call and no patch, and returns having merely logged the
skip (outcome is one of the two skip returns, not a panic or error path). -/
theorem c2_eligibility_gate (cfg : Sync) (env : SyncEnv) (s : Secret)
    (h : mapLookup s.annotations cfg.annotations.providerName = none ∨
         mapLookup s.annotations cfg.annotations.providerName = some "" ∨
         mapLookup s.annotations cfg.annotations.providerRef = none ∨
         mapLookup s.annotations cfg.annotations.providerRef = some "") :
    (addFunc cfg env s).fetchCalls = 0 ∧
    (addFunc cfg env s).patchCalls = 0 ∧
    (addFunc cfg env s).patch = none ∧
    ((addFunc cfg env s).outcome = Outcome.skipNoProvider ∨
     (addFunc cfg env s).outcome = Outcome.skipNoRef) := by
  cases hpn : mapLookup s.annotations cfg.annotations.providerName with
  | none => simp [addFunc, mapGet, hpn]
  | some v =>
    by_cases hv : v = ""
    · subst hv; simp [addFunc, mapGet, hpn]
    · rcases h with h | h | h | h
      · rw [hpn] at h; cases h
      · rw [hpn] at h
        exact absurd (Option.some.inj h) hv
      · simp [addFunc, mapGet, hpn, hv, h]
      · simp [addFunc, mapGet, hpn, hv, h]

/-- C2 witness at a concrete input: a secret lacking the reference annotated
value is skipped with no calls. -/
theorem c2_witness :
    (mapLookup sNoRef.annotations cfgD.annotations.providerRef = none) ∧
    ((addFunc cfgD envOkD sNoRef).fetchCalls = 0 ∧
     (addFunc cfgD envOkD sNoRef).patchCalls = 0 ∧
     (addFunc cfgD envOkD sNoRef).patch = none ∧
     ((addFunc cfgD envOkD sNoRef).outcome = Outcome.skipNoProvider ∨
      (addFunc cfgD envOkD sNoRef).outcome = Outcome.skipNoRef)) :=
  ⟨by decide,
   c2_eligibility_gate cfgD envOkD sNoRef (Or.inr (Or.inr (Or.inl (by decide))))⟩

/-- C3: for every secret whose metadata contains the `last-synced` marker key,
the handler performs no provider call and no patch, whatever the other
recognized annotated values hold. -/
theorem c3_marker_idempotence (cfg : Sync) (env : SyncEnv) (s : Secret)
    (ts : String) (h : mapLookup s.annotations "last-synced" = some ts) :
    (addFunc cfg env s).fetchCalls = 0 ∧
    (addFunc cfg env s).patchCalls = 0 ∧
    (addFunc cfg env s).patch = none := by
  have hm : mapGet s.annotations "last-synced" = (ts, true) := by
    simp [mapGet, h]
  simp only [addFunc, hm]
  split
  · simp
  · split
    · simp
    · simp

/-- C3 witness at a concrete input: an eligible secret already carrying the
marker triggers no calls. -/
theorem c3_witness :
    (mapLookup sSynced.annotations "last-synced" = some "2025-12-31T00:00:00Z") ∧
    ((addFunc cfgD envOkD sSynced).fetchCalls = 0 ∧
     (addFunc cfgD envOkD sSynced).patchCalls = 0 ∧
     (addFunc cfgD envOkD sSynced).patch = none) :=
  ⟨by decide,
   c3_marker_idempotence cfgD envOkD sSynced "2025-12-31T00:00:00Z" (by decide)⟩

/-- C5: the destination data key is the `secret-key` annotated value when that
value is present and non-empty, and the configured default otherwise. -/
theorem c5_destination_key (cfg : Sync) (s : Secret) :
    (∀ v, mapLookup s.annotations cfg.annotations.secretKey = some v → v ≠ "" →
      resolveDataKey cfg s = v) ∧
    ((mapLookup s.annotations cfg.annotations.secretKey = none ∨
      mapLookup s.annotations cfg.annotations.secretKey = some "") →
      resolveDataKey cfg s = cfg.defaultSecretDataKey) := by
  constructor
  · intro v hv hne
    simp [resolveDataKey, mapGet, hv, hne]
  · intro h
    rcases h with h | h <;> simp [resolveDataKey, mapGet, h]

/-- C5 witness at concrete inputs: an annotated override is used verbatim, and
a secret without the override falls back to the configured default `value`. -/
theorem c5_witness :
    resolveDataKey cfgD
      ⟨"ns", "s", [("k8s-secret-sync.weinbender.io/secret-key", "password")], []⟩
      = "password" ∧
    resolveDataKey cfgD sEligible = "value" :=
  ⟨(c5_destination_key cfgD
      ⟨"ns", "s", [("k8s-secret-sync.weinbender.io/secret-key", "password")], []⟩).1
      "password" (by decide) (by decide),
   (c5_destination_key cfgD sEligible).2 (Or.inl (by decide))⟩

/-- C1 counterexample: an eligible, unsynced secret (provider-name and
reference present and non-empty, no marker) for which the handler nevertheless
performs zero provider fetch calls, because provider construction fails before
`GetSecretValue` is ever invoked. -/
theorem c1_counterexample :
    (mapLookup sEligible.annotations cfgD.annotations.providerName = some "op" ∧
     mapLookup sEligible.annotations cfgD.annotations.providerRef = some "vault-item-42" ∧
     mapLookup sEligible.annotations "last-synced" = none) ∧
    (addFunc cfgD envInitFailD sEligible).fetchCalls = 0 := by
  constructor
  · exact ⟨by decide, by decide, by decide⟩
  · decide

/-- C1 (amended): for every eligible, unsynced secret whose provider-name
names the registered provider and whose provider construction succeeds, the
handler performs exactly one provider fetch call, and when that call succeeds
and marshalling and the patch submission succeed, exactly one patch call is
made, whose payload carries the `last-synced` marker and exactly the resolved
destination key mapped to the fetched value. -/
theorem c1_single_fetch_and_patch (cfg : Sync) (env : SyncEnv) (s : Secret)
    (p r : String)
    (hpn : mapLookup s.annotations cfg.annotations.providerName = some p)
    (hpne : p ≠ "")
    (hreg : providersHas p = true)
    (hinit : env.providerInit = Except.ok ())
    (hr : mapLookup s.annotations cfg.annotations.providerRef = some r)
    (hrne : r ≠ "")
    (hls : mapLookup s.annotations "last-synced" = none) :
    (addFunc cfg env s).fetchCalls = 1 ∧
    (∀ v, env.fetch r = Except.ok v → env.marshalOk = true → env.patchOk = true →
      (addFunc cfg env s).patchCalls = 1 ∧
      (addFunc cfg env s).patch = some (computePatch cfg s env.now v) ∧
      mapLookup (computePatch cfg s env.now v).annotations "last-synced" = some env.now ∧
      (computePatch cfg s env.now v).data = [(resolveDataKey cfg s, v)]) := by
  have h1 : mapGet s.annotations cfg.annotations.providerName = (p, true) := by
    simp [mapGet, hpn]
  have h2 : mapGet s.annotations cfg.annotations.providerRef = (r, true) := by
    simp [mapGet, hr]
  have h3 : mapGet s.annotations "last-synced" = ("", false) := by
    simp [mapGet, hls]
  simp only [addFunc, h1, h2, h3, hreg, hinit]
  cases hf : env.fetch r with
  | error e =>
    refine ⟨by simp [hpne, hrne], ?_⟩
    intro v hv
    simp at hv
  | ok v =>
    cases hm : env.marshalOk with
    | false =>
      refine ⟨by simp [hpne, hrne], ?_⟩
      intro w hw hm2 hp2
      simp at hm2
    | true =>
      cases hp : env.patchOk with
      | false =>
        refine ⟨by simp [hpne, hrne], ?_⟩
        intro w hw hm2 hp2
        simp at hp2
      | true =>
        refine ⟨by simp [hpne, hrne], ?_⟩
        intro w hw hm2 hp2
        have hvw : v = w := by injection hw
        subst hvw
        refine ⟨by simp [hpne, hrne], ?_, ?_, rfl⟩
        · simp [hpne, hrne, computePatch]
        · simp [computePatch, mapLookup_mapSet]

/-- C1 witness at a concrete input: the eligible secret with everything
succeeding yields one fetch and one patch whose payload holds the marker and
`value ↦ s3cr3t`. -/
theorem c1_witness :
    (addFunc cfgD envOkD sEligible).fetchCalls = 1 ∧
    (addFunc cfgD envOkD sEligible).patchCalls = 1 ∧
    (addFunc cfgD envOkD sEligible).patch
      = some (computePatch cfgD sEligible "2026-01-01T00:00:00Z" "s3cr3t") ∧
    mapLookup (computePatch cfgD sEligible "2026-01-01T00:00:00Z" "s3cr3t").annotations
      "last-synced" = some "2026-01-01T00:00:00Z" := by
  have h := c1_single_fetch_and_patch cfgD envOkD sEligible "op" "vault-item-42"
    (by decide) (by decide) (by decide) rfl (by decide) (by decide) (by decide)
  have h2 := h.2 "s3cr3t" rfl rfl rfl
  exact ⟨h.1, h2.1, h2.2.1, h2.2.2.1⟩

/-- C4: for an unsynced secret with well-formed (duplicate-free) maps, merging
the computed patch into the object's maps yields exactly the original
annotation map plus the single new `last-synced` key, and the patch's data map
is the single entry mapping the resolved destination key to the fetched value,
so the merge gains or overwrites exactly that data key. -/
theorem c4_patch_roundtrip (cfg : Sync) (s : Secret) (now value : String)
    (hnd : keysNodup s.annotations)
    (hls : mapLookup s.annotations "last-synced" = none) :
    (∀ k, mapLookup (mapMerge s.annotations (computePatch cfg s now value).annotations) k
        = if k = "last-synced" then some now else mapLookup s.annotations k) ∧
    (computePatch cfg s now value).data = [(resolveDataKey cfg s, value)] ∧
    (∀ k, mapLookup (mapMerge s.data (computePatch cfg s now value).data) k
        = if k = resolveDataKey cfg s then some value else mapLookup s.data k) := by
  have hcopy : mapCopy s.annotations = s.annotations := mapCopy_eq_self _ hnd
  have hpatch : (computePatch cfg s now value).annotations
      = s.annotations ++ [("last-synced", now)] := by
    simp [computePatch, hcopy, mapSet_of_absent _ _ _ hls]
  refine ⟨?_, rfl, ?_⟩
  · intro k
    rw [hpatch]
    unfold mapMerge
    rw [show mapCopyInto s.annotations (s.annotations ++ [("last-synced", now)])
          = mapCopyInto (mapCopyInto s.annotations s.annotations) [("last-synced", now)] by
        unfold mapCopyInto; rw [List.foldl_append]]
    rw [mapCopyInto_fix s.annotations s.annotations
        (fun kv hkv => mapLookup_of_mem _ _ _ hnd hkv)]
    show mapLookup (mapSet s.annotations "last-synced" now) k = _
    rw [mapLookup_mapSet]
  · intro k
    show mapLookup (mapSet s.data (resolveDataKey cfg s) value) k = _
    rw [mapLookup_mapSet]

/-- C4 witness at a concrete input: merging the computed patch for the
eligible fixture adds exactly the marker to the metadata and exactly the
`value` key to the data. -/
theorem c4_witness :
    mapLookup (mapMerge sEligible.annotations
        (computePatch cfgD sEligible "2026-01-01T00:00:00Z" "s3cr3t").annotations)
        "last-synced" = some "2026-01-01T00:00:00Z" ∧
    (computePatch cfgD sEligible "2026-01-01T00:00:00Z" "s3cr3t").data
        = [("value", "s3cr3t")] ∧
    mapLookup (mapMerge sEligible.data
        (computePatch cfgD sEligible "2026-01-01T00:00:00Z" "s3cr3t").data)
        "other" = some "prior" := by
  have h := c4_patch_roundtrip cfgD sEligible "2026-01-01T00:00:00Z" "s3cr3t"
    (by decide) (by decide)
  refine ⟨?_, h.2.1.trans (by decide), ?_⟩
  · have := h.1 "last-synced"
    simpa using this
  · have := h.2.2 "other"
    simpa using this

/-- An eligible, unsynced secret naming a provider with no registered
implementation. -/
def sUnknownProvider : Secret :=
  ⟨"ns", "db-secret",
   [("k8s-secret-sync.weinbender.io/provider-name", "unknown-vendor"),
    ("k8s-secret-sync.weinbender.io/provider-ref", "vault-item-42")], []⟩

/-- C6: evaluation of the handler at the failing input. For an eligible,
unsynced secret naming an unregistered provider, the `providers` map lookup
yields the zero value of the function type — a nil function — and the code
calls it immediately (`providers[providerName]()`), which panics at run time
instead of logging an unsupported-provider condition and returning normally as
the specification requires. No provider call and no patch happen, but the
handler does not return normally either. -/
theorem c6_unknown_provider_panics :
    (addFunc cfgD envOkD sUnknownProvider).outcome = Outcome.panicNilProviderFunc ∧
    (addFunc cfgD envOkD sUnknownProvider).fetchCalls = 0 ∧
    (addFunc cfgD envOkD sUnknownProvider).patchCalls = 0 ∧
    providersHas "unknown-vendor" = false := by
  decide

/-- A collaborator environment whose provider fetch fails. -/
def envFetchFailD : SyncEnv :=
  ⟨Except.ok (), fun _ => Except.error "not found", true, true,
   "2026-01-01T00:00:00Z"⟩

/-- A collaborator environment whose patch-payload marshalling fails. -/
def envMarshalFailD : SyncEnv :=
  ⟨Except.ok (), fun _ => Except.ok "s3cr3t", false, true, "2026-01-01T00:00:00Z"⟩

/-- A collaborator environment whose patch submission fails. -/
def envPatchFailD : SyncEnv :=
  ⟨Except.ok (), fun _ => Except.ok "s3cr3t", true, false, "2026-01-01T00:00:00Z"⟩

/-- C8: when the provider fetch fails or the payload marshalling fails, the
handler submits no patch and retains no payload (the fetched value is
discarded, not cached); when the patch submission itself fails, exactly that
one submission was attempted after exactly one fetch, and no further write
follows. In every such case the handler returns by a plain local return, not
a panic. -/
theorem c8_failure_isolation (cfg : Sync) (env : SyncEnv) (s : Secret) :
    ((addFunc cfg env s).outcome = Outcome.fetchFailed →
       (addFunc cfg env s).patchCalls = 0 ∧ (addFunc cfg env s).patch = none) ∧
    ((addFunc cfg env s).outcome = Outcome.marshalFailed →
       (addFunc cfg env s).patchCalls = 0 ∧ (addFunc cfg env s).patch = none) ∧
    ((addFunc cfg env s).outcome = Outcome.patchFailed →
       (addFunc cfg env s).fetchCalls = 1 ∧ (addFunc cfg env s).patchCalls = 1) := by
  simp only [addFunc]
  split
  · simp
  · split
    · simp
    · split
      · simp
      · split
        · split
          · simp
          · split
            · simp
            · split
              · simp
              · split
                · simp
                · simp
        · simp

/-- C8 witness at concrete inputs: the three failure environments leave the
object without a successful write and return locally. -/
theorem c8_witness :
    ((addFunc cfgD envFetchFailD sEligible).patchCalls = 0 ∧
     (addFunc cfgD envFetchFailD sEligible).patch = none) ∧
    ((addFunc cfgD envMarshalFailD sEligible).patchCalls = 0 ∧
     (addFunc cfgD envMarshalFailD sEligible).patch = none) ∧
    ((addFunc cfgD envPatchFailD sEligible).fetchCalls = 1 ∧
     (addFunc cfgD envPatchFailD sEligible).patchCalls = 1) :=
  ⟨(c8_failure_isolation cfgD envFetchFailD sEligible).1 (by decide),
   (c8_failure_isolation cfgD envMarshalFailD sEligible).2.1 (by decide),
   (c8_failure_isolation cfgD envPatchFailD sEligible).2.2 (by decide)⟩

/-- C9: `config.New` falls back to the documented default whenever a variable
is unset (which `os.Getenv` reports as the empty string) or, for the poll
interval, fails `strconv.Atoi`; a set, valid value is returned verbatim for
string fields and as its parsed integer for the poll interval. -/
theorem c9_config_env (e : List (String × String)) :
    (getenv e "KSS_POLL_INTERVAL" = "" → (configNew e).pollInterval = 300) ∧
    (∀ s, getenv e "KSS_POLL_INTERVAL" = s → atoi s = none →
       (configNew e).pollInterval = 300) ∧
    (∀ s n, getenv e "KSS_POLL_INTERVAL" = s → atoi s = some n →
       (configNew e).pollInterval = n) ∧
    (getenv e "KSS_DEFAULT_SECRET_DATA_KEY" = "" →
       (configNew e).defaultSecretDataKey = "value") ∧
    (∀ s, getenv e "KSS_DEFAULT_SECRET_DATA_KEY" = s → s ≠ "" →
       (configNew e).defaultSecretDataKey = s) ∧
    (getenv e "KSS_SECRET_ANNOTATION_KEY_PROVIDER_NAME" = "" →
       (configNew e).annotations.providerName
         = "k8s-secret-sync.weinbender.io/provider-name") ∧
    (∀ s, getenv e "KSS_SECRET_ANNOTATION_KEY_PROVIDER_NAME" = s → s ≠ "" →
       (configNew e).annotations.providerName = s) ∧
    (getenv e "KSS_SECRET_ANNOTATION_KEY_PROVIDER_REF" = "" →
       (configNew e).annotations.providerRef
         = "k8s-secret-sync.weinbender.io/provider-ref") ∧
    (∀ s, getenv e "KSS_SECRET_ANNOTATION_KEY_PROVIDER_REF" = s → s ≠ "" →
       (configNew e).annotations.providerRef = s) ∧
    (getenv e "KSS_SECRET_ANNOTATION_KEY_SECRET_KEY" = "" →
       (configNew e).annotations.secretKey
         = "k8s-secret-sync.weinbender.io/secret-key") ∧
    (∀ s, getenv e "KSS_SECRET_ANNOTATION_KEY_SECRET_KEY" = s → s ≠ "" →
       (configNew e).annotations.secretKey = s) := by
  refine ⟨?_, ?_, ?_, ?_, ?_, ?_, ?_, ?_, ?_, ?_, ?_⟩
  · intro h; simp [configNew, envInt, h]
  · intro s hs hn
    by_cases he : s = ""
    · subst he; simp [configNew, envInt, hs]
    · simp [configNew, envInt, hs, he, hn]
  · intro s n hs hn
    have he : s ≠ "" := by
      intro hcon
      subst hcon
      rw [show atoi "" = none from by decide] at hn
      cases hn
    simp [configNew, envInt, hs, he, hn]
  · intro h; simp [configNew, envString, h]
  · intro s hs he; simp [configNew, envString, hs, he]
  · intro h; simp [configNew, envString, h]
  · intro s hs he; simp [configNew, envString, hs, he]
  · intro h; simp [configNew, envString, h]
  · intro s hs he; simp [configNew, envString, hs, he]
  · intro h; simp [configNew, envString, h]
  · intro s hs he; simp [configNew, envString, hs, he]

/-- C9 witness at concrete environments: all defaults from the empty
environment; a valid override parsed or taken verbatim; an unparsable poll
interval and an empty-string value falling back to the defaults. -/
theorem c9_witness :
    (configNew []).pollInterval = 300 ∧
    (configNew []).defaultSecretDataKey = "value" ∧
    (configNew []).annotations.providerName
      = "k8s-secret-sync.weinbender.io/provider-name" ∧
    (configNew [("KSS_POLL_INTERVAL", "123")]).pollInterval = 123 ∧
    (configNew [("KSS_DEFAULT_SECRET_DATA_KEY", "customval")]).defaultSecretDataKey
      = "customval" ∧
    (configNew [("KSS_POLL_INTERVAL", "not-an-int")]).pollInterval = 300 ∧
    (configNew [("KSS_DEFAULT_SECRET_DATA_KEY", "")]).defaultSecretDataKey
      = "value" :=
  ⟨(c9_config_env []).1 (by decide),
   (c9_config_env []).2.2.2.1 (by decide),
   (c9_config_env []).2.2.2.2.2.1 (by decide),
   (c9_config_env [("KSS_POLL_INTERVAL", "123")]).2.2.1 "123" 123 (by decide) (by decide),
   (c9_config_env [("KSS_DEFAULT_SECRET_DATA_KEY", "customval")]).2.2.2.2.1
     "customval" (by decide) (by decide),
   (c9_config_env [("KSS_POLL_INTERVAL", "not-an-int")]).2.1
     "not-an-int" (by decide) (by decide),
   (c9_config_env [("KSS_DEFAULT_SECRET_DATA_KEY", "")]).2.2.2.1 (by decide)⟩

/-- The eligible fixture with an additional empty-valued `last-synced` entry:
identical to `sEligible` except that the marker key is present with `""`. -/
def sMarkerEmpty : Secret :=
  ⟨"ns", "db-secret", sEligible.annotations ++ [("last-synced", "")],
   sEligible.data⟩

/-- A secret whose provider-name annotated value is present but empty. -/
def sPnEmpty : Secret :=
  ⟨"ns", "s", [("k8s-secret-sync.weinbender.io/provider-name", "")], []⟩

/-- A secret with no recognized annotated values at all. -/
def sPnAbsent : Secret := ⟨"ns", "s", [], []⟩

/-- C7 counterexample: two secrets identical except that one carries the
`last-synced` marker with the empty string as its value behave differently —
the empty-valued marker is treated as present (skip, no calls), not as absent
(sync proceeds) — refuting the claim that an empty value always behaves like
an absent key for every recognized annotated key. -/
theorem c7_counterexample :
    sMarkerEmpty.annotations = sEligible.annotations ++ [("last-synced", "")] ∧
    sMarkerEmpty.data = sEligible.data ∧
    (addFunc cfgD envOkD sMarkerEmpty).fetchCalls = 0 ∧
    (addFunc cfgD envOkD sEligible).fetchCalls = 1 ∧
    addFunc cfgD envOkD sMarkerEmpty ≠ addFunc cfgD envOkD sEligible := by
  refine ⟨rfl, rfl, by decide, by decide, by decide⟩

/-- C7 (amended): an empty-string value behaves exactly like an absent key for
the provider-name, reference and destination-key annotated keys (for the
destination key, the run takes the same branch, makes the same calls and
submits the same data map; only the copied metadata inside the payload can
differ by the empty entry itself). The `last-synced` marker, however, is
tested for presence only, so an empty-valued marker behaves as present — the
handler skips — not as absent. -/
theorem c7_empty_equals_absent (cfg : Sync) (env : SyncEnv) :
    (∀ s1 s2 : Secret,
       mapLookup s1.annotations cfg.annotations.providerName = some "" →
       mapLookup s2.annotations cfg.annotations.providerName = none →
       addFunc cfg env s1 = addFunc cfg env s2) ∧
    (∀ s1 s2 : Secret, ∀ p, p ≠ "" →
       mapLookup s1.annotations cfg.annotations.providerName = some p →
       mapLookup s2.annotations cfg.annotations.providerName = some p →
       mapLookup s1.annotations cfg.annotations.providerRef = some "" →
       mapLookup s2.annotations cfg.annotations.providerRef = none →
       addFunc cfg env s1 = addFunc cfg env s2) ∧
    (∀ s1 s2 : Secret,
       mapLookup s1.annotations cfg.annotations.providerName
         = mapLookup s2.annotations cfg.annotations.providerName →
       mapLookup s1.annotations cfg.annotations.providerRef
         = mapLookup s2.annotations cfg.annotations.providerRef →
       mapLookup s1.annotations "last-synced"
         = mapLookup s2.annotations "last-synced" →
       mapLookup s1.annotations cfg.annotations.secretKey = some "" →
       mapLookup s2.annotations cfg.annotations.secretKey = none →
       (addFunc cfg env s1).outcome = (addFunc cfg env s2).outcome ∧
       (addFunc cfg env s1).fetchCalls = (addFunc cfg env s2).fetchCalls ∧
       (addFunc cfg env s1).patchCalls = (addFunc cfg env s2).patchCalls ∧
       Option.map Patch.data (addFunc cfg env s1).patch
         = Option.map Patch.data (addFunc cfg env s2).patch ∧
       resolveDataKey cfg s1 = resolveDataKey cfg s2) ∧
    (∀ s : Secret, ∀ p r, p ≠ "" → r ≠ "" →
       mapLookup s.annotations cfg.annotations.providerName = some p →
       mapLookup s.annotations cfg.annotations.providerRef = some r →
       mapLookup s.annotations "last-synced" = some "" →
       addFunc cfg env s = ⟨Outcome.alreadySynced, none, 0, 0⟩) := by
  refine ⟨?_, ?_, ?_, ?_⟩
  · intro s1 s2 h1 h2
    simp [addFunc, mapGet, h1, h2]
  · intro s1 s2 p hp h1 h2 hr1 hr2
    simp [addFunc, mapGet, h1, h2, hr1, hr2, hp]
  · intro s1 s2 hpn href hls hsk1 hsk2
    have hrk1 : resolveDataKey cfg s1 = cfg.defaultSecretDataKey := by
      simp [resolveDataKey, mapGet, hsk1]
    have hrk2 : resolveDataKey cfg s2 = cfg.defaultSecretDataKey := by
      simp [resolveDataKey, mapGet, hsk2]
    cases hp1 : mapLookup s1.annotations cfg.annotations.providerName with
    | none =>
      have hp2 : mapLookup s2.annotations cfg.annotations.providerName = none := by
        rw [← hpn, hp1]
      simp [addFunc, mapGet, hp1, hp2, hrk1, hrk2]
    | some v =>
      have hp2 : mapLookup s2.annotations cfg.annotations.providerName = some v := by
        rw [← hpn, hp1]
      by_cases hv : v = ""
      · subst hv; simp [addFunc, mapGet, hp1, hp2, hrk1, hrk2]
      · cases hr1 : mapLookup s1.annotations cfg.annotations.providerRef with
        | none =>
          have hr2 : mapLookup s2.annotations cfg.annotations.providerRef = none := by
            rw [← href, hr1]
          simp [addFunc, mapGet, hp1, hp2, hr1, hr2, hv, hrk1, hrk2]
        | some r =>
          have hr2 : mapLookup s2.annotations cfg.annotations.providerRef = some r := by
            rw [← href, hr1]
          by_cases hre : r = ""
          · subst hre; simp [addFunc, mapGet, hp1, hp2, hr1, hr2, hv, hrk1, hrk2]
          · cases hl1 : mapLookup s1.annotations "last-synced" with
            | some t =>
              have hl2 : mapLookup s2.annotations "last-synced" = some t := by
                rw [← hls, hl1]
              simp [addFunc, mapGet, hp1, hp2, hr1, hr2, hl1, hl2, hv, hre, hrk1, hrk2]
            | none =>
              have hl2 : mapLookup s2.annotations "last-synced" = none := by
                rw [← hls, hl1]
              simp only [addFunc, mapGet, hp1, hp2, hr1, hr2, hl1, hl2]
              cases hreg : providersHas v with
              | false => simp [hv, hre, hrk1, hrk2]
              | true =>
                cases hi : env.providerInit with
                | error er => simp [hv, hre, hrk1, hrk2]
                | ok u =>
                  cases hf : env.fetch r with
                  | error er => simp [hv, hre, hrk1, hrk2]
                  | ok w =>
                    cases hmk : env.marshalOk with
                    | false => simp [hv, hre, hrk1, hrk2]
                    | true =>
                      cases hpk : env.patchOk with
                      | false =>
                        refine ⟨by simp [hv, hre], by simp [hv, hre],
                                by simp [hv, hre], ?_, hrk1.trans hrk2.symm⟩
                        simp [hv, hre, resolveDataKey, mapGet, hsk1, hsk2]
                      | true =>
                        refine ⟨by simp [hv, hre], by simp [hv, hre],
                                by simp [hv, hre], ?_, hrk1.trans hrk2.symm⟩
                        simp [hv, hre, resolveDataKey, mapGet, hsk1, hsk2]
  · intro s p r hp hr h1 h2 h3
    simp [addFunc, mapGet, h1, h2, h3, hp, hr]

/-- C7 witness at concrete inputs: an empty provider-name value behaves like a
bare secret, and an empty-valued marker makes the handler skip. -/
theorem c7_witness :
    addFunc cfgD envOkD sPnEmpty = addFunc cfgD envOkD sPnAbsent ∧
    addFunc cfgD envOkD sMarkerEmpty = ⟨Outcome.alreadySynced, none, 0, 0⟩ :=
  ⟨(c7_empty_equals_absent cfgD envOkD).1 sPnEmpty sPnAbsent (by decide) (by decide),
   (c7_empty_equals_absent cfgD envOkD).2.2.2 sMarkerEmpty "op" "vault-item-42"
     (by decide) (by decide) (by decide) (by decide) (by decide)⟩

/-! ## Heap-level rendering of the handler, for the no-mutation property

Go maps are reference values: assigning into a map reachable from the event
object would mutate that object. The handler's only map writes are
`annotations := make(map[string]string)`, `maps.Copy(annotations, secret.Annotations)`
and `annotations["last-synced"] = ...`, all against the freshly made map.
To state this, maps live in a heap addressed by allocation order. -/

/-- Read a map address from the heap (out-of-range reads yield the empty
map). -/
def hget (h : List (List (String × String))) (r : Nat) : List (String × String) :=
  h.getD r []

/-- Overwrite the map stored at an address. -/
def hset (h : List (List (String × String))) (r : Nat) (m : List (String × String)) :
    List (List (String × String)) :=
  h.set r m

/-- Allocate a fresh map (`make`), returning the extended heap and the fresh
address. -/
def halloc (h : List (List (String × String))) (m : List (String × String)) :
    List (List (String × String)) × Nat :=
  (h ++ [m], h.length)

theorem hget_append (h : List (List (String × String)))
    (x : List (String × String)) (r : Nat) (hr : r < h.length) :
    hget (h ++ [x]) r = hget h r := by
  unfold hget
  induction h generalizing r with
  | nil => cases hr
  | cons y rest ih =>
    cases r with
    | zero => rfl
    | succ n => exact ih n (Nat.lt_of_succ_lt_succ hr)

theorem hget_hset_ne (h : List (List (String × String))) (r : Nat)
    (m : List (String × String)) (r' : Nat) (hne : r' ≠ r) :
    hget (hset h r m) r' = hget h r' := by
  unfold hget hset
  induction h generalizing r r' with
  | nil => rfl
  | cons y rest ih =>
    cases r with
    | zero =>
      cases r' with
      | zero => exact absurd rfl hne
      | succ n => rfl
    | succ k =>
      cases r' with
      | zero => rfl
      | succ n => exact ih k n (fun he => hne (by rw [he]))

theorem hget_hset_self (h : List (List (String × String))) (r : Nat)
    (m : List (String × String)) (hr : r < h.length) :
    hget (hset h r m) r = m := by
  unfold hget hset
  induction h generalizing r with
  | nil => cases hr
  | cons y rest ih =>
    cases r with
    | zero => rfl
    | succ n => exact ih n (Nat.lt_of_succ_lt_succ hr)

/-- The `AddFunc` handler with the secret's metadata map held in the heap at
`annRef` (its data map, which the handler never reads, may live at any other
address). The patch branch performs the three map writes of the source —
allocate, copy in, add the marker — all against the fresh address. -/
def addFuncH (cfg : Sync) (env : SyncEnv)
    (h : List (List (String × String))) (annRef : Nat) :
    List (List (String × String)) × HandlerRun :=
  let anns := hget h annRef
  let pn := mapGet anns cfg.annotations.providerName
  if pn.2 = false ∨ pn.1 = "" then
    (h, ⟨.skipNoProvider, none, 0, 0⟩)
  else
    let rid := mapGet anns cfg.annotations.providerRef
    if rid.2 = false ∨ rid.1 = "" then
      (h, ⟨.skipNoRef, none, 0, 0⟩)
    else if (mapGet anns "last-synced").2 = true then
      (h, ⟨.alreadySynced, none, 0, 0⟩)
    else
      let sk := mapGet anns cfg.annotations.secretKey
      let secretDataKey := if sk.2 = true ∧ sk.1 ≠ "" then sk.1
                           else cfg.defaultSecretDataKey
      if providersHas pn.1 then
        match env.providerInit with
        | .error _ => (h, ⟨.providerInitFailed, none, 0, 0⟩)
        | .ok _ =>
          match env.fetch rid.1 with
          | .error _ => (h, ⟨.fetchFailed, none, 1, 0⟩)
          | .ok value =>
            let al := halloc h []
            let h1 := al.1
            let r := al.2
            let h2 := hset h1 r (mapCopyInto (hget h1 r) (hget h1 annRef))
            let h3 := hset h2 r (mapSet (hget h2 r) "last-synced" env.now)
            let patch : Patch := ⟨hget h3 r, [(secretDataKey, value)]⟩
            if env.marshalOk = false then (h3, ⟨.marshalFailed, none, 1, 0⟩)
            else if env.patchOk = false then (h3, ⟨.patchFailed, some patch, 1, 1⟩)
            else (h3, ⟨.success, some patch, 1, 1⟩)
      else
        (h, ⟨.panicNilProviderFunc, none, 0, 0⟩)

/-- C10: the handler never writes to any map that existed before it ran —
in particular the received secret's own metadata and data maps are identical
before and after, whatever branch is taken; the patch is built from a freshly
allocated map. -/
theorem c10_no_input_mutation (cfg : Sync) (env : SyncEnv)
    (h : List (List (String × String))) (annRef : Nat) :
    ∀ r, r < h.length → hget (addFuncH cfg env h annRef).1 r = hget h r := by
  intro r hr
  have hstep : ∀ m1 m2 : List (String × String),
      hget (hset (hset (h ++ [[]]) h.length m1) h.length m2) r = hget h r := by
    intro m1 m2
    have hne : r ≠ h.length := Nat.ne_of_lt hr
    rw [hget_hset_ne _ _ _ _ hne, hget_hset_ne _ _ _ _ hne, hget_append _ _ _ hr]
  simp only [addFuncH]
  split
  · rfl
  · split
    · rfl
    · split
      · rfl
      · split
        · split
          · rfl
          · split
            · rfl
            · simp only [halloc, hset]
              split
              · exact hstep _ _
              · split
                · exact hstep _ _
                · exact hstep _ _
        · rfl

/-- C10 witness at a concrete input: running the handler on a heap holding the
eligible fixture's metadata map leaves that map untouched even though the run
succeeds and submits a patch. -/
theorem c10_witness :
    hget (addFuncH cfgD envOkD [sEligible.annotations] 0).1 0
      = sEligible.annotations :=
  c10_no_input_mutation cfgD envOkD [sEligible.annotations] 0 0 (by decide)

end KSS
